import Mathlib

/-!
Verification development for the NerdsIQ retrieval pipeline.

Shallow embedding of the reimplementable core of the repository:
the token-window chunker (`backend/scripts/index_documents.py`,
`chunk_text`), the query cache (`backend/app/services/cache_service.py`,
`CacheService`), and the RAG orchestrator with its session memory
(`backend/app/services/rag_service.py`, `RAGService`).

Modelling conventions:
* Python `str` is Lean `String`; the normalisation helpers used by the
  cache key (`str.lower`, `str.strip`, slicing `[:32]`) are embedded as
  structural functions on the underlying character list so that they
  evaluate inside the kernel.  They cover the ASCII range, which is all
  the repository's call sites exercise.
* `tiktoken` encode/decode is external to the repository: the chunker is
  embedded at the token level (`List Token`), and a chunk "decoding to
  the full text" is expressed as the chunk being the full token
  sequence (decode ∘ encode is the tokenizer's round-trip contract).
* `hashlib.sha256(...).hexdigest()` is an external primitive and is
  passed to `CacheService.generate_key` as an arbitrary function
  parameter; only the normalisation and the 32-character truncation are
  repository code.
* Python dicts (`CacheService._cache`, `RAGService._memories`) are
  embedded as association lists with unique keys (`dinsert` replaces,
  `derase` deletes); `time.time()` is an explicit `Int` argument.
* The external collaborators (OpenAI embeddings, Qdrant search, the
  chat model) are fields of an `Env` record returning `Except`, and
  `RAGService.query` also returns a `Trace` counting how many times each
  collaborator was invoked.
* The `while` loop of `chunk_text` has no termination guarantee in the
  source (nothing validates `overlap < chunk_size`), so it is embedded
  with explicit fuel: `none` means the fuel ran out, i.e. the loop was
  still running.
-/

/-- Token ids produced by the tiktoken encoder (nonnegative integers). -/
abbrev Token := Nat

/-- Fuelled embedding of the `while start < len(tokens)` loop of
`chunk_text` (index_documents.py lines 45-55).  Each iteration appends
`tokens[start : start + chunkSize]`, moves `start` to
`start + chunkSize - overlap` and breaks once the new start reaches the
token count.  `none` means the fuel was exhausted with the loop still
running. -/
def chunkLoop (tokens : List Token) (chunkSize overlap : Nat) :
    Nat → Nat → List (List Token) → Option (List (List Token))
  | 0, _, _ => none
  | fuel + 1, start, acc =>
    if start < tokens.length then
      let acc2 := acc ++ [(tokens.drop start).take chunkSize]
      let start2 := start + chunkSize - overlap
      if tokens.length ≤ start2 then some acc2
      else chunkLoop tokens chunkSize overlap fuel start2 acc2
    else some acc

/-- Embedding of `chunk_text(text, chunk_size, overlap)`: split the token
sequence of the text into overlapping windows.  The canonical fuel
`tokens.length + 1` is enough for every terminating run of the source
loop (the start index strictly increases and stays below the token
count while the loop runs). -/
def chunk_text (chunkSize overlap : Nat) (tokens : List Token) :
    Option (List (List Token)) :=
  chunkLoop tokens chunkSize overlap (tokens.length + 1) 0 []

/-- Python `dict` deletion `del m[k]` on an association list. -/
def derase {β : Type} (key : String) (m : List (String × β)) : List (String × β) :=
  m.filter fun p => p.1 != key

/-- Python `dict` assignment `m[k] = v` on an association list: the new
binding replaces any previous one. -/
def dinsert {β : Type} (key : String) (v : β) (m : List (String × β)) :
    List (String × β) :=
  (key, v) :: derase key m

/-- Python `dict` lookup `m.get(k)` on an association list. -/
def dlookup {β : Type} (key : String) : List (String × β) → Option β
  | [] => none
  | p :: t => if p.1 == key then some p.2 else dlookup key t

/-- One stored cache entry: `{"data": ..., "timestamp": time.time()}`
(cache_service.py lines 53-56). -/
structure Entry (α : Type) where
  data : α
  timestamp : Int
deriving DecidableEq

/-- The class-level store `CacheService._cache`.  It is a class
attribute in the source, so every `CacheService` instance reads and
writes this single map; the embedding threads the one store explicitly
through every operation. -/
abbrev Cache (α : Type) := List (String × Entry α)

/-- `CacheService._ttl_seconds = 3600` (cache_service.py line 20). -/
def ttl_seconds : Int := 3600

/-- A `CacheService` instance.  Instances carry no storage of their own
(`_cache` and `_ttl_seconds` are class attributes); the `iid` field only
distinguishes instances. -/
structure CacheService where
  iid : Nat
deriving DecidableEq

/-- ASCII case folding of one character, as done by `str.lower` on the
repository's ASCII queries. -/
def lowerChar (c : Char) : Char :=
  if 'A' ≤ c ∧ c ≤ 'Z' then Char.ofNat (c.toNat + 32) else c

/-- `query.lower()` (ASCII range). -/
def toLowerS (s : String) : String := ⟨s.data.map lowerChar⟩

/-- `query.strip()`: drop leading and trailing whitespace. -/
def stripS (s : String) : String :=
  ⟨((s.data.dropWhile Char.isWhitespace).reverse.dropWhile
      Char.isWhitespace).reverse⟩

/-- Python slicing `s[:n]` on a string. -/
def takeS (s : String) (n : Nat) : String := ⟨s.data.take n⟩

/-- `CacheService.generate_key` (cache_service.py lines 22-30):
normalise the query by lowercasing and trimming whitespace, hash the
result and keep the first 32 hex characters.  `hash` stands for the
external `hashlib.sha256(...).hexdigest()` primitive. -/
def CacheService.generate_key (hash : String → String) (query : String) :
    String :=
  takeS (hash (stripS (toLowerS query))) 32

/-- `CacheService.get` (cache_service.py lines 32-47): absent keys give
`None`; an entry older than the TTL is deleted and reported absent;
otherwise the stored data is returned.  The store left behind by the
call is returned alongside the result. -/
def CacheService.get {α : Type} (_self : CacheService) (now : Int)
    (key : String) (store : Cache α) : Option α × Cache α :=
  match dlookup key store with
  | none => (none, store)
  | some e =>
    if ttl_seconds < now - e.timestamp then (none, derase key store)
    else (some e.data, store)

/-- `CacheService.set` (cache_service.py lines 49-57): unconditionally
store the value with the current timestamp. -/
def CacheService.set {α : Type} (_self : CacheService) (now : Int)
    (key : String) (v : α) (store : Cache α) : Cache α :=
  dinsert key ⟨v, now⟩ store

/-- `CacheService.invalidate` (cache_service.py lines 59-63). -/
def CacheService.invalidate {α : Type} (_self : CacheService)
    (key : String) (store : Cache α) : Cache α :=
  derase key store

/-- `CacheService.invalidate_all` (cache_service.py lines 65-68):
`self._cache.clear()`. -/
def CacheService.invalidate_all {α : Type} (_self : CacheService)
    (_store : Cache α) : Cache α :=
  []

/-- `CacheService.stats` (cache_service.py lines 70-75). -/
def CacheService.stats {α : Type} (_self : CacheService)
    (store : Cache α) : Nat × Int :=
  (store.length, ttl_seconds)

/-- One `{"user": ..., "assistant": ...}` exchange of session memory. -/
structure Exchange where
  user : String
  assistant : String
deriving DecidableEq

/-- `RAGService._memory_window = 5` (rag_service.py line 50). -/
def memory_window : Nat := 5

/-- `RAGService._memories`: session id → list of exchanges. -/
abbrev Memories := List (String × List Exchange)

/-- The exchange list `_get_memory` returns for a session (an unknown
session reads as the empty list). -/
def getMemory (ms : Memories) (sid : String) : List Exchange :=
  (dlookup sid ms).getD []

/-- The store mutation performed by `_get_memory` (rag_service.py lines
81-85): a missing session id is materialised with an empty list. -/
def ensureMemory (ms : Memories) (sid : String) : Memories :=
  match dlookup sid ms with
  | some _ => ms
  | none => dinsert sid [] ms

/-- `RAGService._add_to_memory`'s effect on one session's exchange list
(rag_service.py lines 87-93): append the exchange, then keep only the
last `memory_window` entries (`memory[-5:]`) if the bound is exceeded. -/
def add_to_memory (mem : List Exchange) (x : Exchange) : List Exchange :=
  let m := mem ++ [x]
  if memory_window < m.length then m.drop (m.length - memory_window) else m

/-- Store one session's exchange list back into `_memories`. -/
def setMemory (ms : Memories) (sid : String) (mem : List Exchange) :
    Memories :=
  dinsert sid mem ms

/-- Run `_add_to_memory` over a whole sequence of exchanges, starting
from a given memory list. -/
def applyExchanges (mem : List Exchange) (xs : List Exchange) :
    List Exchange :=
  xs.foldl add_to_memory mem

/-- `RAGService._format_history` (rag_service.py lines 172-182). -/
def format_history (mem : List Exchange) : String :=
  if mem.isEmpty then "No previous conversation."
  else
    String.intercalate "\n"
      (List.flatten (mem.map fun e =>
        ["User: " ++ e.user, "Assistant: " ++ e.assistant]))

/-- One Qdrant search hit, reduced to the payload fields the orchestrator
reads (`payload.get("text"/"source_url"/"source_name")`, with the
defaults already applied). -/
structure SearchResult where
  text : String
  source_url : String
  source_name : String
deriving DecidableEq

/-- One iteration of the `for result in search_results` loop of
`RAGService.query` (rag_service.py lines 131-139): accumulate the
labelled context block, and append the source URL when it is nonempty
and not yet collected. -/
def contextStep (acc : List String × List String) (r : SearchResult) :
    List String × List String :=
  (acc.1 ++ ["[From: " ++ r.source_name ++ "]" ++ "\n" ++ r.text],
   if r.source_url != "" && !(acc.2.contains r.source_url) then
     acc.2 ++ [r.source_url]
   else acc.2)

/-- Context assembly of `RAGService.query` (rag_service.py lines
127-141): the joined context (or the placeholder for an empty result
set) together with the deduplicated source list. -/
def buildContext (results : List SearchResult) : String × List String :=
  let p := results.foldl contextStep ([], [])
  (if p.1.isEmpty then "No relevant documents found."
   else String.intercalate "\n\n---\n\n" p.1,
   p.2)

/-- The system prompt template of `RAGService` (rag_service.py lines
53-63); the placeholders are substituted by the prompt template before
the model call. -/
def system_prompt : String :=
  "You are NerdsIQ, a helpful AI assistant for NerdsToGo staff.\nAnswer questions based on the provided context from company documents.\nIf the context doesn't contain relevant information, say so clearly but still try to be helpful.\nAlways be professional, concise, and helpful.\n\nContext from documents:\n\x7bcontext\x7d\n\nPrevious conversation:\n\x7bhistory\x7d\n"

/-- The `{"answer": ..., "sources": ...}` value cached per query. -/
structure CachedVal where
  answer : String
  sources : List String
deriving DecidableEq

/-- External collaborators of `RAGService.query`, as fallible functions:
the sha256 hex digest used by the cache key, `embed_text`, the Qdrant
`query_points` search, and the chat-model invocation (receiving the
substituted system prompt and the question). -/
structure Env (V : Type) where
  hash : String → String
  embed : String → Except String V
  search : V → Except String (List SearchResult)
  llm : String → String → Except String String

/-- The mutable state `RAGService.query` touches: the class-level cache
store and the session-memory map. -/
structure RAGState where
  cache : Cache CachedVal
  memories : Memories
deriving DecidableEq

/-- How many times each external collaborator was invoked during one
`query` call. -/
structure Trace where
  embedCalls : Nat
  searchCalls : Nat
  llmCalls : Nat
deriving DecidableEq

/-- Result of one `RAGService.query` call: the returned (or raised)
value, the state left behind, and the collaborator-call trace. -/
structure QueryOut where
  result : Except String (String × List String)
  state : RAGState
  trace : Trace

/-- The `CacheService()` instance created by `RAGService.__init__`. -/
def cacheInst : CacheService := ⟨0⟩

/-- `RAGService.query` (rag_service.py lines 95-170): cache lookup
(returning the cached pair on a hit), embedding, vector search, context
assembly, history formatting, model call, memory update, cache write.
A raised provider error propagates as `Except.error` at the point it
occurs, leaving the remaining stages unexecuted. -/
def RAGService.query {V : Type} (env : Env V) (now : Int) (st : RAGState)
    (question sessionId : String) : QueryOut :=
  let key := CacheService.generate_key env.hash question
  let r1 := CacheService.get cacheInst now key st.cache
  match r1.1 with
  | some v => ⟨.ok (v.answer, v.sources), ⟨r1.2, st.memories⟩, ⟨0, 0, 0⟩⟩
  | none =>
    match env.embed question with
    | .error e => ⟨.error e, ⟨r1.2, st.memories⟩, ⟨1, 0, 0⟩⟩
    | .ok qv =>
      match env.search qv with
      | .error e => ⟨.error e, ⟨r1.2, st.memories⟩, ⟨1, 1, 0⟩⟩
      | .ok results =>
        let ctx := buildContext results
        let ms1 := ensureMemory st.memories sessionId
        let history := format_history (getMemory ms1 sessionId)
        let prompt :=
          (system_prompt.replace "\x7bcontext\x7d" ctx.1).replace
            "\x7bhistory\x7d" history
        match env.llm prompt question with
        | .error e => ⟨.error e, ⟨r1.2, ms1⟩, ⟨1, 1, 1⟩⟩
        | .ok answer =>
          let ms2 :=
            setMemory ms1 sessionId
              (add_to_memory (getMemory ms1 sessionId) ⟨question, answer⟩)
          let c2 := CacheService.set cacheInst now key ⟨answer, ctx.2⟩ r1.2
          ⟨.ok (answer, ctx.2), ⟨c2, ms2⟩, ⟨1, 1, 1⟩⟩

/-- Specification-side description of source collection (spec §4.3 stage
4 and §8: "collect unique source URLs in first-seen order, skipping
blanks and duplicates"), to be compared with the code's fold. -/
def specDedup (seen : List String) : List String → List String
  | [] => []
  | u :: us =>
    if u ≠ "" ∧ u ∉ seen then u :: specDedup (seen ++ [u]) us
    else specDedup seen us

/-- Seven concrete exchanges, for exercising the memory window. -/
def sevenEx : List Exchange :=
  [⟨"q1", "a1"⟩, ⟨"q2", "a2"⟩, ⟨"q3", "a3"⟩, ⟨"q4", "a4"⟩,
   ⟨"q5", "a5"⟩, ⟨"q6", "a6"⟩, ⟨"q7", "a7"⟩]

/-- Five concrete search results whose URLs are [A, B, A, "", C]. -/
def demoResults : List SearchResult :=
  [⟨"t1", "https://x/a", "d1"⟩, ⟨"t2", "https://x/b", "d2"⟩,
   ⟨"t3", "https://x/a", "d3"⟩, ⟨"t4", "", "d4"⟩,
   ⟨"t5", "https://x/c", "d5"⟩]

/-- Concrete environment whose collaborators all succeed; the hash
parameter is the identity so keys can be read off. -/
def envOk : Env (List Int) :=
  ⟨fun s => s, fun _ => .ok [], fun _ => .ok [], fun _ _ => .ok "fresh"⟩

/-- Concrete environment whose embedding call raises. -/
def envEmbedFail : Env (List Int) :=
  ⟨fun s => s, fun _ => .error "boom", fun _ => .ok [],
   fun _ _ => .ok "fresh"⟩

/-- Concrete state holding a fresh cache entry for the normalised
question "hi" and one prior exchange for session "s". -/
def stHit : RAGState :=
  ⟨[("hi", ⟨⟨"ans", ["https://x/a"]⟩, 100⟩)], [("s", [⟨"u1", "a1"⟩])]⟩

/-- Concrete state whose cache entry for the question "q" was written at
time 0 and is therefore expired at time 5000. -/
def stExpired : RAGState :=
  ⟨[("q", ⟨⟨"old", []⟩, 0⟩)], [("s", [⟨"u1", "a1"⟩])]⟩

/-! ### Chunker lemmas -/

/-- A loop iteration whose advanced start reaches the token count breaks
with the final chunk appended. -/
lemma chunkLoop_last {tokens : List Token} {chunkSize overlap fuel start : Nat}
    {acc : List (List Token)} (h1 : start < tokens.length)
    (h2 : tokens.length ≤ start + chunkSize - overlap) :
    chunkLoop tokens chunkSize overlap (fuel + 1) start acc =
      some (acc ++ [(tokens.drop start).take chunkSize]) := by
  simp [chunkLoop, h1, h2]

/-- A loop iteration whose advanced start stays below the token count
appends its chunk and continues from the advanced start. -/
lemma chunkLoop_cont {tokens : List Token} {chunkSize overlap fuel start : Nat}
    {acc : List (List Token)} (h1 : start < tokens.length)
    (h2 : start + chunkSize - overlap < tokens.length) :
    chunkLoop tokens chunkSize overlap (fuel + 1) start acc =
      chunkLoop tokens chunkSize overlap fuel (start + chunkSize - overlap)
        (acc ++ [(tokens.drop start).take chunkSize]) := by
  simp [chunkLoop, h1, Nat.not_le.mpr h2]

/-- With `overlap < chunk_size` the loop finishes within
`tokens.length - start + 1` iterations: the start index strictly
increases each round. -/
lemma chunkLoop_terminates (tokens : List Token) (chunkSize overlap : Nat)
    (hov : overlap < chunkSize) :
    ∀ fuel start acc, tokens.length - start < fuel →
      ∃ out, chunkLoop tokens chunkSize overlap fuel start acc = some out := by
  intro fuel
  induction fuel with
  | zero => intro start acc h; exact absurd h (Nat.not_lt_zero _)
  | succ n ih =>
    intro start acc h
    by_cases h1 : start < tokens.length
    · by_cases h2 : tokens.length ≤ start + chunkSize - overlap
      · exact ⟨_, chunkLoop_last h1 h2⟩
      · rw [chunkLoop_cont h1 (by omega)]
        exact ih _ _ (by omega)
    · exact ⟨acc, by simp [chunkLoop, h1]⟩

/-- For every `overlap < chunk_size` the source loop terminates on all
inputs (the second half of the spec's configuration contract). -/
lemma chunk_text_total (chunkSize overlap : Nat) (tokens : List Token)
    (hov : overlap < chunkSize) :
    ∃ out, chunk_text chunkSize overlap tokens = some out :=
  chunkLoop_terminates tokens chunkSize overlap hov _ 0 [] (by omega)

/-- Claim C2 (code_bug): `chunk_text` contains no validation of
`overlap >= chunk_size`, and no `ConfigurationError` exists anywhere in
the repository.  On a one-token text with `chunk_size = overlap = 1` the
loop re-enters with `start = 0` forever: for every fuel bound the
embedded loop is still running (`none`), so the source loop never
terminates instead of rejecting the configuration. -/
theorem chunk_text_overlap_loop :
    ∀ fuel acc, chunkLoop [0] 1 1 fuel 0 acc = none := by
  intro fuel
  induction fuel with
  | zero => intro acc; rfl
  | succ n ih =>
    intro acc
    rw [chunkLoop_cont (by norm_num) (by norm_num)]
    exact ih _

/-- Claim C1 (counterexample): a text of 3 tokens with
`chunk_size = 4 > 3` and `overlap = 2` yields TWO chunks, not one: the
full text and a tail chunk, because after the first window the start
index `4 - 2 = 2` is still below the token count. -/
theorem chunk_text_short_text_two_chunks :
    chunk_text 4 2 [10, 20, 30] = some [[10, 20, 30], [30]] ∧
      ([10, 20, 30] : List Token).length < 4 := by
  exact ⟨rfl, by norm_num⟩

/-- Claim C1 (corrected): a nonempty text yields exactly one chunk, equal
to the full token sequence, exactly when its token count is at most
`chunk_size - overlap` (not merely below `chunk_size`); an empty text
yields zero chunks. -/
theorem chunk_text_single_chunk (chunkSize overlap : Nat)
    (tokens : List Token) :
    (0 < tokens.length → tokens.length ≤ chunkSize - overlap →
      chunk_text chunkSize overlap tokens = some [tokens])
    ∧ chunk_text chunkSize overlap [] = some [] := by
  constructor
  · intro h1 h2
    unfold chunk_text
    rw [chunkLoop_last h1 (by omega)]
    simp [List.take_of_length_le (by omega : tokens.length ≤ chunkSize)]
  · rfl

/-- Witness for C1: a 400-token text with the production configuration
(500, 50) gives back exactly one chunk holding all 400 tokens, and the
empty text gives zero chunks. -/
theorem chunk_text_single_chunk_witness :
    chunk_text 500 50 (List.range 400) = some [List.range 400] ∧
      chunk_text 500 50 [] = some [] :=
  ⟨(chunk_text_single_chunk 500 50 (List.range 400)).1 (by simp) (by simp),
   (chunk_text_single_chunk 500 50 []).2⟩

/-- Claim C8 (confirmed): with `chunk_size = 500`, `overlap = 50`, a
1200-token document is split into exactly the three windows
[0,500), [450,950), [900,1200): each later window starts 450 tokens
after the previous one and the windows cover all 1200 tokens. -/
theorem chunk_text_1200 (tokens : List Token) (h : tokens.length = 1200) :
    chunk_text 500 50 tokens =
      some [tokens.take 500, (tokens.drop 450).take 500, tokens.drop 900] := by
  have h3 : (tokens.drop 900).take 500 = tokens.drop 900 :=
    List.take_of_length_le (by simp [List.length_drop]; omega)
  unfold chunk_text
  rw [h]
  rw [chunkLoop_cont (by omega) (by omega)]
  norm_num
  rw [show (1200 : Nat) = 1199 + 1 from by norm_num]
  rw [chunkLoop_cont (by omega) (by omega)]
  norm_num
  rw [show (1199 : Nat) = 1198 + 1 from by norm_num]
  rw [chunkLoop_last (by omega) (by omega)]
  simp [h3]

/-- Witness for C8 at the concrete document `List.range 1200`. -/
theorem chunk_text_1200_witness :
    (List.range 1200).length = 1200 ∧
      chunk_text 500 50 (List.range 1200) =
        some [(List.range 1200).take 500,
          ((List.range 1200).drop 450).take 500, (List.range 1200).drop 900] :=
  ⟨by simp, chunk_text_1200 (List.range 1200) (by simp)⟩

/-! ### Association-list (Python dict) lemmas -/

/-- Deleting a key removes its binding. -/
lemma dlookup_derase_self {β : Type} (k : String) (m : List (String × β)) :
    dlookup k (derase k m) = none := by
  induction m with
  | nil => rfl
  | cons p t ih =>
    by_cases hp : p.1 = k
    · have h1 : derase k (p :: t) = derase k t := by
        simp [derase, List.filter_cons, hp]
      rw [h1]
      exact ih
    · have h1 : derase k (p :: t) = p :: derase k t := by
        simp [derase, List.filter_cons, bne_iff_ne, hp]
      have h2 : (p.1 == k) = false := beq_eq_false_iff_ne.mpr hp
      rw [h1]
      simp only [dlookup, h2, Bool.false_eq_true, if_false]
      exact ih

/-- Deleting one key leaves the other keys' bindings unchanged. -/
lemma dlookup_derase_ne {β : Type} {s k : String} (h : s ≠ k)
    (m : List (String × β)) :
    dlookup s (derase k m) = dlookup s m := by
  induction m with
  | nil => rfl
  | cons p t ih =>
    by_cases hp : p.1 = k
    · have h1 : derase k (p :: t) = derase k t := by
        simp [derase, List.filter_cons, hp]
      have h2 : (p.1 == s) = false := by
        refine beq_eq_false_iff_ne.mpr ?_
        rw [hp]
        exact Ne.symm h
      rw [h1, ih,
        show dlookup s (p :: t) = dlookup s t from by
          simp [dlookup, h2]]
    · have h1 : derase k (p :: t) = p :: derase k t := by
        simp [derase, List.filter_cons, bne_iff_ne, hp]
      rw [h1]
      by_cases hs : p.1 = s
      · simp [dlookup, hs]
      · have h2 : (p.1 == s) = false := beq_eq_false_iff_ne.mpr hs
        simp only [dlookup, h2, Bool.false_eq_true, if_false]
        exact ih

/-- A freshly written binding is found. -/
lemma dlookup_dinsert_self {β : Type} (k : String) (v : β)
    (m : List (String × β)) :
    dlookup k (dinsert k v m) = some v := by
  simp [dinsert, dlookup]

/-- Writing one key leaves the other keys' bindings unchanged. -/
lemma dlookup_dinsert_ne {β : Type} {s k : String} (h : s ≠ k) (v : β)
    (m : List (String × β)) :
    dlookup s (dinsert k v m) = dlookup s m := by
  have h2 : (k == s) = false := beq_eq_false_iff_ne.mpr (Ne.symm h)
  simp only [dinsert, dlookup, h2, Bool.false_eq_true, if_false]
  exact dlookup_derase_ne h m

/-- `_get_memory`'s lazy materialisation of a session does not change the
exchange list any session reads. -/
lemma getMemory_ensure (ms : Memories) (sid s : String) :
    getMemory (ensureMemory ms sid) s = getMemory ms s := by
  unfold ensureMemory
  cases hm : dlookup sid ms with
  | some l => rfl
  | none =>
    by_cases hs : s = sid
    · subst hs
      simp [getMemory, dlookup_dinsert_self, hm]
    · simp [getMemory, dlookup_dinsert_ne hs]

/-! ### Cache claims -/

/-- Claim C3 (confirmed): `CacheService.get` returns the stored value
exactly when an entry for the key exists and `now - created_at <= ttl`;
a found-but-expired entry is deleted from the store by the call and
reported absent. -/
theorem cache_get_ttl {α : Type} (srv : CacheService) (store : Cache α)
    (key : String) (now : Int) :
    (∀ v, (CacheService.get srv now key store).1 = some v ↔
      ∃ e, dlookup key store = some e ∧ e.data = v ∧
        now - e.timestamp ≤ ttl_seconds)
    ∧ (∀ e, dlookup key store = some e →
        ttl_seconds < now - e.timestamp →
          (CacheService.get srv now key store).1 = none ∧
          (CacheService.get srv now key store).2 = derase key store ∧
          dlookup key (CacheService.get srv now key store).2 = none) := by
  cases hm : dlookup key store with
  | none =>
    have hget : CacheService.get srv now key store = (none, store) := by
      unfold CacheService.get
      rw [hm]
    constructor
    · intro v
      rw [hget]
      simp
    · intro e he
      simp at he
  | some e =>
    have hget : CacheService.get srv now key store =
        if ttl_seconds < now - e.timestamp then (none, derase key store)
        else (some e.data, store) := by
      unfold CacheService.get
      rw [hm]
    by_cases hexp : ttl_seconds < now - e.timestamp
    · rw [if_pos hexp] at hget
      constructor
      · intro v
        rw [hget]
        constructor
        · intro hv
          simp at hv
        · rintro ⟨e', he', hv, hfresh⟩
          cases he'
          exact absurd hfresh (by omega)
      · intro e' he' hexp2
        cases he'
        rw [hget]
        exact ⟨rfl, rfl, dlookup_derase_self key store⟩
    · rw [if_neg hexp] at hget
      constructor
      · intro v
        rw [hget]
        constructor
        · intro hv
          simp at hv
          exact ⟨e, rfl, hv, by omega⟩
        · rintro ⟨e', he', hv, hfresh⟩
          cases he'
          simp [hv]
      · intro e' he' hexp2
        cases he'
        exact absurd hexp2 hexp

/-- Witness for C3: the entry written at time 100 is readable at time
200, and at time 5000 (past the 3600-second TTL) the same entry is
reported absent and deleted. -/
theorem cache_get_ttl_witness :
    (CacheService.get cacheInst 200 "k"
        [("k", ⟨(7 : Nat), 100⟩)]).1 = some 7 ∧
      dlookup "k"
        (CacheService.get cacheInst 5000 "k"
          [("k", ⟨(7 : Nat), 100⟩)]).2 = none :=
  ⟨((cache_get_ttl cacheInst [("k", ⟨(7 : Nat), 100⟩)] "k" 200).1 7).mpr
      ⟨⟨7, 100⟩, by decide, rfl, by decide⟩,
   ((cache_get_ttl cacheInst [("k", ⟨(7 : Nat), 100⟩)] "k" 5000).2
      ⟨7, 100⟩ (by decide) (by decide)).2.2⟩

/-- Claim C9 (confirmed): `generate_key` is a pure function of the
query (it is a Lean function of its arguments), and any two queries with
the same case-folded, whitespace-trimmed form map to the same key --
whatever the external sha256 hex digest does. -/
theorem generate_key_normalized (hash : String → String) (q1 q2 : String)
    (h : stripS (toLowerS q1) = stripS (toLowerS q2)) :
    CacheService.generate_key hash q1 = CacheService.generate_key hash q2 := by
  unfold CacheService.generate_key
  rw [h]

/-- Witness for C9: the spec's three concrete queries share one key. -/
theorem generate_key_normalized_witness :
    CacheService.generate_key (fun s => s) "Hello World" =
        CacheService.generate_key (fun s => s) "  hello world  " ∧
      CacheService.generate_key (fun s => s) "  hello world  " =
        CacheService.generate_key (fun s => s) "HELLO WORLD" :=
  ⟨generate_key_normalized (fun s => s) "Hello World" "  hello world  "
      (by decide),
   generate_key_normalized (fun s => s) "  hello world  " "HELLO WORLD"
      (by decide)⟩

/-- Claim C10 (confirmed): the store is the single class-level map, so a
value one instance writes is (while fresh) returned by any other
instance's read, and one instance's `invalidate_all` leaves every
instance observing an empty cache (every read absent, zero entries). -/
theorem cache_shared_instances {α : Type} (c1 c2 : CacheService)
    (store : Cache α) (k : String) (v : α) (now now2 : Int) :
    (now2 - now ≤ ttl_seconds →
      (CacheService.get c2 now2 k (CacheService.set c1 now k v store)).1 =
        some v)
    ∧ (∀ k2 now3,
        (CacheService.get c2 now3 k2 (CacheService.invalidate_all c1 store)).1
          = none)
    ∧ (CacheService.stats c2 (CacheService.invalidate_all c1 store)).1 = 0 := by
  refine ⟨?_, ?_, rfl⟩
  · intro h
    unfold CacheService.get CacheService.set
    simp only [dlookup_dinsert_self]
    rw [if_neg (by omega)]
  · intro k2 now3
    rfl

/-- Witness for C10: instance ⟨1⟩ reads the value instance ⟨0⟩ wrote at
the TTL boundary, and after instance ⟨0⟩ clears the store instance ⟨1⟩
finds nothing. -/
theorem cache_shared_instances_witness :
    (CacheService.get ⟨1⟩ 3600 "k"
        (CacheService.set ⟨0⟩ 0 "k" (42 : Nat) [])).1 = some 42 ∧
      (CacheService.get ⟨1⟩ 99 "k"
        (CacheService.invalidate_all ⟨0⟩
          [("k", ⟨(42 : Nat), 0⟩)])).1 = none :=
  ⟨(cache_shared_instances ⟨0⟩ ⟨1⟩ [] "k" 42 0 3600).1 (by decide),
   (cache_shared_instances ⟨0⟩ ⟨1⟩ [("k", ⟨(42 : Nat), 0⟩)] "k" 42 0 0).2.1
      "k" 99⟩

/-! ### Session-memory claims -/

/-- `_add_to_memory` always leaves the last `memory_window` entries of
the appended list (dropping zero entries while the bound is not
exceeded). -/
lemma add_to_memory_eq (mem : List Exchange) (x : Exchange) :
    add_to_memory mem x =
      (mem ++ [x]).drop ((mem ++ [x]).length - memory_window) := by
  simp only [add_to_memory]
  split
  · rfl
  · rename_i h
    rw [show (mem ++ [x]).length - memory_window = 0 from by omega,
      List.drop_zero]

/-- Folding `_add_to_memory` over a sequence of exchanges keeps exactly
the last `memory_window` entries of initial memory plus sequence. -/
lemma applyExchanges_eq (xs : List Exchange) :
    ∀ mem : List Exchange, mem.length ≤ memory_window →
      applyExchanges mem xs =
        (mem ++ xs).drop ((mem ++ xs).length - memory_window) := by
  induction xs with
  | nil =>
    intro mem h
    rw [List.append_nil,
      show mem.length - memory_window = 0 from by omega, List.drop_zero]
    rfl
  | cons x xs ih =>
    intro mem h
    have hx := add_to_memory_eq mem x
    have hlen : (add_to_memory mem x).length ≤ memory_window := by
      rw [hx, List.length_drop]
      omega
    have step : applyExchanges mem (x :: xs) =
        applyExchanges (add_to_memory mem x) xs := rfl
    rw [step, ih _ hlen, hx,
      show mem ++ x :: xs = (mem ++ [x]) ++ xs from by simp]
    set a := mem ++ [x] with ha
    have haL : a.length = mem.length + 1 := by simp [ha]
    have h1 : a.drop (a.length - memory_window) ++ xs =
        (a ++ xs).drop (a.length - memory_window) :=
      (List.drop_append_of_le_length (by omega)).symm
    rw [h1]
    simp only [List.length_drop]
    rw [List.drop_drop]
    have hlen2 : (a ++ xs).length = mem.length + 1 + xs.length := by
      simp [List.length_append, haL]
    congr 1
    omega

/-- Claim C4 (confirmed): after appending any sequence of exchanges the
session memory list is exactly the last `min(n, 5)` appended exchanges
in their original relative order, so its length never exceeds the
window `W = 5`. -/
theorem session_memory_window (xs : List Exchange) :
    applyExchanges [] xs = xs.drop (xs.length - memory_window)
    ∧ (applyExchanges [] xs).length = min xs.length memory_window
    ∧ (applyExchanges [] xs).length ≤ memory_window := by
  have h := applyExchanges_eq xs [] (by simp [memory_window])
  simp only [List.nil_append] at h
  refine ⟨h, ?_, ?_⟩
  · rw [h, List.length_drop]
    omega
  · rw [h, List.length_drop]
    omega

/-- Witness for C4: appending 7 exchanges leaves exactly the last 5, in
order. -/
theorem session_memory_window_witness :
    applyExchanges [] sevenEx =
      [⟨"q3", "a3"⟩, ⟨"q4", "a4"⟩, ⟨"q5", "a5"⟩, ⟨"q6", "a6"⟩,
        ⟨"q7", "a7"⟩] ∧
      (applyExchanges [] sevenEx).length = 5 :=
  ⟨(session_memory_window sevenEx).1.trans (by decide),
   (session_memory_window sevenEx).2.1.trans (by decide)⟩

/-! ### Context assembly (C7) -/

/-- The sources component of the result-loop fold is the spec's
first-seen deduplication relative to the sources collected so far. -/
lemma foldl_contextStep_sources (rs : List SearchResult) :
    ∀ ps ss : List String,
      (rs.foldl contextStep (ps, ss)).2 =
        ss ++ specDedup ss (rs.map fun r => r.source_url) := by
  induction rs with
  | nil => intro ps ss; simp [specDedup]
  | cons r rs ih =>
    intro ps ss
    rw [List.foldl_cons, List.map_cons]
    by_cases hc : r.source_url ≠ "" ∧ r.source_url ∉ ss
    · have hb : (r.source_url != "" && !(ss.contains r.source_url)) = true := by
        simp [List.contains, List.elem_eq_mem, hc.1, hc.2]
      have hstep : contextStep (ps, ss) r =
          (ps ++ ["[From: " ++ r.source_name ++ "]" ++ "\n" ++ r.text],
            ss ++ [r.source_url]) := by
        simp only [contextStep]
        rw [hb]
        simp
      rw [hstep, ih,
        show specDedup ss (r.source_url :: rs.map fun r => r.source_url) =
            r.source_url ::
              specDedup (ss ++ [r.source_url]) (rs.map fun r => r.source_url)
          from by rw [specDedup]; exact if_pos hc]
      simp
    · have hb : (r.source_url != "" && !(ss.contains r.source_url)) = false := by
        rcases not_and_or.mp hc with hu | hu
        · simp only [ne_eq, not_not] at hu
          simp [hu]
        · simp only [not_not] at hu
          simp [List.contains, List.elem_eq_mem, hu]
      have hstep : contextStep (ps, ss) r =
          (ps ++ ["[From: " ++ r.source_name ++ "]" ++ "\n" ++ r.text], ss) := by
        simp only [contextStep]
        rw [hb]
        simp
      rw [hstep, ih,
        show specDedup ss (r.source_url :: rs.map fun r => r.source_url) =
            specDedup ss (rs.map fun r => r.source_url)
          from by rw [specDedup]; exact if_neg hc]

/-- Claim C7 (confirmed): context assembly collects the retrieved
source URLs in first-seen order, dropping empty strings and exact
duplicates, and an empty result set yields the placeholder context
instead of a failure. -/
theorem buildContext_sources (results : List SearchResult) :
    (buildContext results).2 =
      specDedup [] (results.map fun r => r.source_url)
    ∧ (results = [] →
        buildContext results = ("No relevant documents found.", [])) := by
  constructor
  · show (results.foldl contextStep ([], [])).2 = _
    rw [foldl_contextStep_sources results [] []]
    simp
  · rintro rfl
    rfl

/-- Witness for C7: URLs [A, B, A, "", C] give sources [A, B, C], and
the empty result set gives the placeholder context. -/
theorem buildContext_sources_witness :
    (buildContext demoResults).2 =
        ["https://x/a", "https://x/b", "https://x/c"] ∧
      buildContext [] = ("No relevant documents found.", []) :=
  ⟨(buildContext_sources demoResults).1.trans (by decide),
   (buildContext_sources []).2 rfl⟩

/-! ### Orchestrator claims (C5, C6) -/

/-- Claim C5 (confirmed): when the cache lookup hits a fresh entry for
the question's key, `query` returns the cached (answer, sources) pair
with zero embedding, search or model calls, and the state — cache store
and every session's memory — is exactly the state before the call. -/
theorem query_cache_hit {V : Type} (env : Env V) (now : Int)
    (st : RAGState) (q sid : String) (e : Entry CachedVal)
    (h1 : dlookup (CacheService.generate_key env.hash q) st.cache = some e)
    (h2 : now - e.timestamp ≤ ttl_seconds) :
    RAGService.query env now st q sid =
      ⟨.ok (e.data.answer, e.data.sources), st, ⟨0, 0, 0⟩⟩ := by
  have hget0 : CacheService.get cacheInst now
      (CacheService.generate_key env.hash q) st.cache =
        if ttl_seconds < now - e.timestamp then
          (none, derase (CacheService.generate_key env.hash q) st.cache)
        else (some e.data, st.cache) := by
    unfold CacheService.get
    rw [h1]
  have hget : CacheService.get cacheInst now
      (CacheService.generate_key env.hash q) st.cache =
        (some e.data, st.cache) := by
    rw [hget0, if_neg (by omega)]
  simp only [RAGService.query, hget]

/-- Witness for C5: the differently-cased question "HI" hits the entry
cached under the normalised key "hi" and changes nothing. -/
theorem query_cache_hit_witness :
    RAGService.query envOk 200 stHit "HI" "s" =
      ⟨.ok ("ans", ["https://x/a"]), stHit, ⟨0, 0, 0⟩⟩ :=
  query_cache_hit envOk 200 stHit "HI" "s" ⟨⟨"ans", ["https://x/a"]⟩, 100⟩
    (by decide) (by decide)

/-- Claim C6 (counterexample): the cache store is NOT always exactly as
it was before a failed call: with an expired entry stored under the
question's key, a query whose embedding call fails leaves the cache
empty — the lookup lazily evicted the expired entry — while the store
held one entry before the call. -/
theorem query_error_evicts_expired :
    (RAGService.query envEmbedFail 5000 stExpired "q" "s").state.cache = []
    ∧ stExpired.cache = [("q", ⟨⟨"old", []⟩, 0⟩)] :=
  ⟨rfl, rfl⟩

/-- Claim C6 (corrected): if the embedding, search or model call raises,
`query` propagates the error having performed no cache write and no
memory append: the resulting cache store is exactly the store left by
the initial cache lookup (identical to the prior store except that a
found-but-expired entry under the question's key was lazily evicted),
and every session's exchange list reads exactly as before the call. -/
theorem query_error_frame {V : Type} (env : Env V) (now : Int)
    (st : RAGState) (q sid err : String)
    (h : (RAGService.query env now st q sid).result = .error err) :
    (RAGService.query env now st q sid).state.cache =
      (CacheService.get cacheInst now
        (CacheService.generate_key env.hash q) st.cache).2
    ∧ ∀ s, getMemory (RAGService.query env now st q sid).state.memories s =
        getMemory st.memories s := by
  cases hc : (CacheService.get cacheInst now
      (CacheService.generate_key env.hash q) st.cache).1 with
  | some v =>
    simp only [RAGService.query, hc] at h
    simp at h
  | none =>
    cases hemb : env.embed q with
    | error e =>
      simp [RAGService.query, hc, hemb]
    | ok qv =>
      cases hs : env.search qv with
      | error e =>
        simp [RAGService.query, hc, hemb, hs]
      | ok results =>
        cases hl : env.llm
            ((system_prompt.replace "\x7bcontext\x7d"
                (buildContext results).1).replace "\x7bhistory\x7d"
              (format_history (getMemory (ensureMemory st.memories sid) sid)))
            q with
        | error e =>
          simp only [RAGService.query, hc, hemb, hs, hl]
          simp [getMemory_ensure]
        | ok answer =>
          simp only [RAGService.query, hc, hemb, hs, hl] at h
          simp at h

/-- Witness for C6: a failing embedding call on a cache miss leaves the
cache as the lookup left it and session "s"'s memory unchanged. -/
theorem query_error_frame_witness :
    (RAGService.query envEmbedFail 0 stHit "nope" "s").state.cache =
        (CacheService.get cacheInst 0
          (CacheService.generate_key envEmbedFail.hash "nope")
          stHit.cache).2
    ∧ getMemory
        (RAGService.query envEmbedFail 0 stHit "nope" "s").state.memories
        "s" = getMemory stHit.memories "s" := by
  have h := query_error_frame envEmbedFail 0 stHit "nope" "s" "boom" rfl
  exact ⟨h.1, h.2 "s"⟩
